import Mathlib

/-!
Verification development for the mess-dashboard attendance / ratings /
complaints core.  JavaScript runtime values that flow through the
attendance store are embedded as the inductive `JsValue`; the dashboard's
pure aggregation functions are translated definition-by-definition from
`src/lib/menuUtils.ts`, `src/pages/Attendance.tsx`, `src/pages/Ratings.tsx`,
the complaints page and the data hook.  JavaScript numbers are modelled as
exact rationals (`ℚ`) or integers where the code only ever sees integers.
-/

namespace Mess

/-- A JSON-like JavaScript runtime value, as stored in the realtime
attendance store.  `vUndefined` stands for the result of a failed member
access; numbers are modelled as integers (the attendance paths never carry
fractional numbers). -/
inductive JsValue where
  | vNull
  | vUndefined
  | vBool (b : Bool)
  | vNum (n : Int)
  | vStr (s : String)
  | vArr (elems : List JsValue)
  | vObj (fields : List (String × JsValue))

/-- JavaScript truthiness of a value (`if (v)`): `null`, `undefined`,
`false`, `0` and `""` are falsy, everything else is truthy. -/
def truthy : JsValue → Bool
  | .vNull => false
  | .vUndefined => false
  | .vBool b => b
  | .vNum n => n != 0
  | .vStr s => s != ""
  | .vArr _ => true
  | .vObj _ => true

/-- `typeof v === 'object'` — true for objects, arrays, and (a JavaScript
quirk) `null`. -/
def isObjectType : JsValue → Bool
  | .vNull => true
  | .vArr _ => true
  | .vObj _ => true
  | _ => false

/-- Member access `v[k]`: `some` field value on objects that carry the key,
`none` (i.e. `undefined`) otherwise. -/
def jsField : JsValue → String → Option JsValue
  | .vObj fields, k => fields.lookup k
  | _, _ => none

/-- Member access that materialises the `undefined` result, as in
`dayNode?.[meal]`. -/
def jsIndex (v : JsValue) (k : String) : JsValue :=
  (jsField v k).getD .vUndefined

/-- `typeof v[k] === 'boolean' ? v[k] : none`: the boolean value of field
`k`, if the field is present and boolean. -/
def boolField (v : JsValue) (k : String) : Option Bool :=
  match jsField v k with
  | some (.vBool b) => some b
  | _ => none

/-- `Object.entries(v)` for the two object-typed shapes (arrays enumerate
index keys in order). -/
def jsEntries : JsValue → List (String × JsValue)
  | .vObj fields => fields
  | .vArr elems => elems.enum.map (fun p => (toString p.1, p.2))
  | _ => []

/-- `parseAttendanceValue` from `src/pages/Attendance.tsx` (the strict
normalizer): `none` models the `null` ("no response") result, `some b` a
boolean decision.  Field names are probed in the source's order:
`attending`, `isAttending`, `isattending`, `present`, `isPresent`,
`ispresent`. -/
def parseAttendanceValue (value : JsValue) : Option Bool :=
  match value with
  | .vNull => none
  | .vUndefined => none
  | .vBool b => some b
  | v =>
    if truthy v && isObjectType v then
      match boolField v "attending" with
      | some b => some b
      | none =>
      match boolField v "isAttending" with
      | some b => some b
      | none =>
      match boolField v "isattending" with
      | some b => some b
      | none =>
      match boolField v "present" with
      | some b => some b
      | none =>
      match boolField v "isPresent" with
      | some b => some b
      | none =>
      match boolField v "ispresent" with
      | some b => some b
      | none => none
    else none

/-- The tri-state attendance decision of the spec. -/
inductive AttendanceDecision where
  | yes
  | no
  | noResponse
deriving DecidableEq, Repr

/-- The strict normalizer's decision: `parseAttendanceValue` with
`true → Yes`, `false → No`, `null → NoResponse`. -/
def normalize (v : JsValue) : AttendanceDecision :=
  match parseAttendanceValue v with
  | some true => .yes
  | some false => .no
  | none => .noResponse

/-- The per-entry flag of the data hook's legacy-tolerant classifier
(`extractYesUserIds` loop body): an explicit boolean `attending`/`present`
field wins, else a bare boolean value, else the legacy rule "any stored
value counts as a positive RSVP". -/
def legacyFlag (value : JsValue) : Bool :=
  let flag : Option Bool :=
    if truthy value && isObjectType value then
      match boolField value "attending" with
      | some b => some b
      | none => boolField value "present"
    else
      match value with
      | .vBool b => some b
      | _ => none
  flag.getD true

/-- `extractYesUserIds` from the data hook: the user ids under an
attendance node `attendance/{date}/{meal}` whose entries classify as a
"yes" under the legacy-tolerant rule, in store order. -/
def extractYesUserIds (raw : JsValue) : List String :=
  if truthy raw && isObjectType raw then
    ((jsEntries raw).filter (fun e => legacyFlag e.2)).map (fun e => e.1)
  else []

/-- Strict lexicographic comparison of character lists by code point:
the semantics of JavaScript's `<` / `>` on strings (code-unit
comparison; for the ASCII `YYYY-MM-DD` keys this coincides with every
relevant ordering, `localeCompare` included). -/
def charsLt : List Char → List Char → Bool
  | [], [] => false
  | [], _ :: _ => true
  | _ :: _, [] => false
  | a :: as, b :: bs =>
    if a.toNat < b.toNat then true
    else if b.toNat < a.toNat then false
    else charsLt as bs

/-- Non-strict lexicographic comparison of character lists. -/
def charsLe : List Char → List Char → Bool
  | [], _ => true
  | _ :: _, [] => false
  | a :: as, b :: bs =>
    if a.toNat < b.toNat then true
    else if b.toNat < a.toNat then false
    else charsLe as bs

/-- JavaScript string `a < b`. -/
def jsLt (a b : String) : Bool := charsLt a.data b.data

/-- JavaScript string `a <= b` (also the ascending comparator induced by
`a.localeCompare(b)` on ASCII keys). -/
def jsLe (a b : String) : Bool := charsLe a.data b.data

/-- The three meal types, `MealType` in `src/lib/menuUtils.ts`. -/
inductive MealType where
  | Breakfast
  | Lunch
  | Dinner
deriving DecidableEq, Repr

/-- `MEAL_ORDER` from `src/lib/menuUtils.ts`: the canonical
Breakfast < Lunch < Dinner iteration order. -/
def MEAL_ORDER : List MealType := [.Breakfast, .Lunch, .Dinner]

/-- The store key of a meal type (`'Breakfast' | 'Lunch' | 'Dinner'`). -/
def mealKey : MealType → String
  | .Breakfast => "Breakfast"
  | .Lunch => "Lunch"
  | .Dinner => "Dinner"

/-- The dashboard's derived active-meal value
(`{ meal, isLive, date, isTomorrow }`). -/
structure ActiveMealInfo where
  meal : MealType
  isLive : Bool
  date : String
  isTomorrow : Bool
deriving DecidableEq, Repr

/-- Modelled from the spec: the realtime store query
`rtdb.ref('attendance').orderByKey().limitToLast(n)` — the last `n`
entries of the attendance map in lexicographic key order ("last N keys by
lexicographic order", §6; date keys are `YYYY-MM-DD` strings, for which
the store's key ordering is string ordering). -/
def limitToLast (n : Nat) (store : List (String × JsValue)) :
    List (String × JsValue) :=
  let sorted := store.mergeSort (fun a b => jsLe a.1 b.1)
  sorted.drop (sorted.length - n)

/-- The authoritative active-meal resolution of the data hook
(`useFirebaseData`, step 1): destructure the single entry returned by
`limitToLast 1`; scan `MEAL_ORDER`, remembering the last meal key whose
node is truthy; default to Breakfast; `isLive`/`isTomorrow` compare the
date key with today's date string.  An empty store (`lastVal` null) falls
back to the time-based resolver's value. -/
def resolveActiveMeal (store : List (String × JsValue)) (todayStr : String)
    (fallback : ActiveMealInfo) : ActiveMealInfo :=
  match (limitToLast 1 store).head? with
  | none => fallback
  | some (dateKey, dayNode) =>
    let lastMeal : Option MealType := MEAL_ORDER.foldl
      (fun acc meal =>
        if truthy dayNode && truthy (jsIndex dayNode (mealKey meal)) then
          some meal
        else acc)
      none
    { meal := lastMeal.getD .Breakfast
      isLive := dateKey == todayStr
      date := dateKey
      isTomorrow := jsLt todayStr dateKey }

/-- One row of the 7-day rolling chart (`DailyStats` in the types file). -/
structure DailyStats where
  date : String
  Breakfast : Nat
  Lunch : Nat
  Dinner : Nat
  total : Nat
deriving DecidableEq, Repr

/-- The data hook's chart builder: sort the history entries ascending by
date key (`a[0].localeCompare(b[0])`), then for each entry count the
legacy-tolerant yes-ids per meal; the emitted `date` field is
`date.slice(5)` (the key with its `YYYY-` prefix removed). -/
def buildDailyStats (history : List (String × JsValue)) : List DailyStats :=
  let entries := history.mergeSort (fun a b => jsLe a.1 b.1)
  entries.map (fun e =>
    let b := (extractYesUserIds (jsIndex e.2 (mealKey .Breakfast))).length
    let l := (extractYesUserIds (jsIndex e.2 (mealKey .Lunch))).length
    let d := (extractYesUserIds (jsIndex e.2 (mealKey .Dinner))).length
    { date := e.1.drop 5, Breakfast := b, Lunch := l, Dinner := d
      total := b + l + d })

/-- The hook's `dailyStats` output for a given attendance store: the chart
rows built from the last 7 date keys. -/
def dailyStatsOfStore (store : List (String × JsValue)) : List DailyStats :=
  buildDailyStats (limitToLast 7 store)

/-- A meal slot of the weekly menu (`MealSlot` in `src/lib/menuUtils.ts`):
`start`/`end` are `HH:MM` 24-hour strings; the item list plays no role in
the window logic. -/
structure MealSlot where
  start : String
  «end» : String
  items : List String
deriving DecidableEq, Repr

/-- Split a character list at every colon (`s.split(':')`). -/
def splitOnColon : List Char → List (List Char)
  | [] => [[]]
  | c :: cs =>
    match splitOnColon cs with
    | [] => [[]]
    | g :: gs => if c = ':' then [] :: g :: gs else (c :: g) :: gs

/-- `Number(part)` on a split component: the denoted natural number for a
digit string, `some 0` for the empty string (JavaScript `Number('') = 0`),
`none` for a non-numeric component (JavaScript `NaN`). -/
def parseDigits (cs : List Char) : Option Nat :=
  if cs.all (fun c => c.isDigit) then
    some (cs.foldl (fun acc c => acc * 10 + (c.toNat - '0'.toNat)) 0)
  else none

/-- `toMinutes` from `src/lib/menuUtils.ts`: parse `HH:MM` to minutes
since midnight; a missing component reads as 0 (the source's `?? 0`
destructuring default).  A non-numeric component, `NaN` in the source,
is also read as 0 here — the weekly schedule only ever supplies
well-formed `HH:MM` strings. -/
def toMinutes (s : String) : Nat :=
  let parts := (splitOnColon s.data).map parseDigits
  let h := ((parts.get? 0).bind id).getD 0
  let m := ((parts.get? 1).bind id).getD 0
  h * 60 + m

/-- `isTimeInSlot` from `src/lib/menuUtils.ts`: an end time numerically
below the start wraps to the next day (`end += 24h`); a current minute
below the start of an afternoon/evening slot (`start > 12:00`) is also
advanced by 24h before the comparison, so a 23:00–01:00 window contains
00:30. -/
def isTimeInSlot (nowMinutes : Nat) (slot : MealSlot) : Bool :=
  let start := toMinutes slot.start
  let end0 := toMinutes slot.«end»
  let endM := if end0 < start then end0 + 24 * 60 else end0
  let n := if nowMinutes < start && decide (12 * 60 < start) then
      nowMinutes + 24 * 60
    else nowMinutes
  decide (start ≤ n) && decide (n ≤ endM)

/-- A meal rating record as consumed by `src/pages/Ratings.tsx`; optional
fields model JavaScript's absent/`undefined` values and numeric fields are
exact rationals. -/
structure Rating where
  userName : Option String
  userEmail : Option String
  mealName : Option String
  averageRating : Option ℚ
  staffBehaviorRating : Option ℚ
  hygieneRating : Option ℚ
deriving DecidableEq, Repr

/-- The numeric payload of the `averages` memo in `src/pages/Ratings.tsx`
(the page formats each with `toFixed(1)` for display; the em-dash
placeholder for an empty `valid` list is modelled as `none`). -/
structure AveragesOut where
  overall : ℚ
  staff : ℚ
  hygiene : ℚ
deriving DecidableEq, Repr

/-- `averages` from `src/pages/Ratings.tsx` (lines 866–875): keep the
records with a positive `averageRating`; over exactly that set, average
`averageRating`, `staffBehaviorRating` and `hygieneRating`, each read with
`?? 0`. -/
def averages (ratings : List Rating) : Option AveragesOut :=
  let valid := ratings.filter (fun r => decide (0 < r.averageRating.getD 0))
  if valid.length = 0 then none
  else
    let n : ℚ := valid.length
    some
      { overall := (valid.map (fun r => r.averageRating.getD 0)).sum / n
        staff := (valid.map (fun r => r.staffBehaviorRating.getD 0)).sum / n
        hygiene := (valid.map (fun r => r.hygieneRating.getD 0)).sum / n }

/-- One card of the `mealStats` memo in `src/pages/Ratings.tsx`
(lines 547–555). -/
structure MealStat where
  meal : String
  avg : ℚ
  staffAvg : ℚ
  hygieneAvg : ℚ
  count : Nat
deriving DecidableEq, Repr

/-- The per-meal branch of `mealStats`: filter to the records of this meal
whose `averageRating` is positive, then average the three numeric fields
over that one filtered set (empty set yields zeros). -/
def mealStatFor (meal : String) (ratings : List Rating) : MealStat :=
  let mealRatings := ratings.filter (fun r =>
    r.mealName == some meal && decide (0 < r.averageRating.getD 0))
  let n : ℚ := mealRatings.length
  { meal
    avg := if mealRatings.length ≠ 0 then
        (mealRatings.map (fun r => r.averageRating.getD 0)).sum / n else 0
    staffAvg := if mealRatings.length ≠ 0 then
        (mealRatings.map (fun r => r.staffBehaviorRating.getD 0)).sum / n else 0
    hygieneAvg := if mealRatings.length ≠ 0 then
        (mealRatings.map (fun r => r.hygieneRating.getD 0)).sum / n else 0
    count := mealRatings.length }

/-- `mealStats` from `src/pages/Ratings.tsx`: one card per meal in the
fixed `MEALS` order. -/
def mealStats (ratings : List Rating) : List MealStat :=
  (MEAL_ORDER.map mealKey).map (fun meal => mealStatFor meal ratings)

/-- `parseFloat(x.toFixed(d))`: round to `d` decimal places (all values
reached in this development are exact at that precision). -/
def roundTo (d : Nat) (x : ℚ) : ℚ :=
  (round (x * 10 ^ d) : ℤ) / (10 ^ d : ℚ)

/-- One row of the user-analytics table built by `buildUserStats`. -/
structure UserStat where
  name : String
  email : String
  count : Nat
  avg : ℚ
  variance : ℚ
  anomaly : Bool
deriving DecidableEq, Repr

/-- Grouping key of `buildUserStats`:
`r.userEmail ?? r.userName ?? 'unknown'`. -/
def userKey (r : Rating) : String :=
  ((r.userEmail).or (r.userName)).getD "unknown"

/-- Append a rating to its user's bucket, creating the bucket at the end
on first sight (JavaScript object-key insertion order). -/
def insertRating (groups : List (String × List Rating)) (key : String)
    (r : Rating) : List (String × List Rating) :=
  match groups with
  | [] => [(key, [r])]
  | (k, rs) :: rest =>
    if k = key then (k, rs ++ [r]) :: rest
    else (k, rs) :: insertRating rest key r

/-- The grouping pass of `buildUserStats`: buckets keyed by
`userEmail ?? userName ?? 'unknown'`, in first-occurrence order. -/
def groupByUser (ratings : List Rating) : List (String × List Rating) :=
  ratings.foldl (fun gs r => insertRating gs (userKey r) r) []

/-- `buildUserStats` from `src/pages/Ratings.tsx` (lines 156–171): per
user, the positive `averageRating` values give the mean and (population)
variance; the anomaly flag is `variance > 1.5 || avg < 1.5 || avg > 4.9`
on the unrounded values; displayed mean and variance are rounded to 1 and
2 decimals; rows are sorted by rating count descending. -/
def buildUserStats (ratings : List Rating) : List UserStat :=
  let stats := (groupByUser ratings).map (fun g =>
    let rs := g.2
    let name := (rs.head?.bind (fun r => r.userName)).getD "?"
    let email := (rs.head?.bind (fun r => r.userEmail)).getD ""
    let avgs := (rs.map (fun r => r.averageRating.getD 0)).filter
      (fun v => decide (0 < v))
    let avg : ℚ := if avgs.length ≠ (0 : Nat) then
        avgs.sum / (avgs.length : ℚ) else 0
    let variance : ℚ := if (1 : Nat) < avgs.length then
        ((avgs.map (fun v => (v - avg) ^ 2)).sum) / (avgs.length : ℚ) else 0
    let anomaly := decide ((3 : ℚ) / 2 < variance) ||
      decide (avg < (3 : ℚ) / 2) || decide ((49 : ℚ) / 10 < avg)
    { name, email, count := rs.length, avg := roundTo 1 avg
      variance := roundTo 2 variance, anomaly })
  stats.mergeSort (fun a b => decide (b.count ≤ a.count))

/-- Complaint status, `ComplaintStatus` in the types file. -/
inductive ComplaintStatus where
  | Pending
  | InProgress
  | Resolved
deriving DecidableEq, Repr

/-- A complaint as consumed by the complaints page; only the fields the
grouping logic reads are modelled. -/
structure Complaint where
  id : String
  status : ComplaintStatus
  timestamp : Option ℤ
deriving DecidableEq, Repr

/-- The `grouped` memo of the complaints page (lines 382–391): push each
complaint into its status bucket in input order, then sort `Pending` and
`In Progress` ascending and `Resolved` descending by `timestamp ?? 0`. -/
def grouped (cs : List Complaint) :
    List Complaint × List Complaint × List Complaint :=
  let pending := cs.filter (fun c => c.status == .Pending)
  let inProgress := cs.filter (fun c => c.status == .InProgress)
  let resolved := cs.filter (fun c => c.status == .Resolved)
  (pending.mergeSort (fun a b =>
      decide (a.timestamp.getD 0 ≤ b.timestamp.getD 0)),
   inProgress.mergeSort (fun a b =>
      decide (a.timestamp.getD 0 ≤ b.timestamp.getD 0)),
   resolved.mergeSort (fun a b =>
      decide (b.timestamp.getD 0 ≤ a.timestamp.getD 0)))

/-- Whether a day node records data for a meal, as the hook tests it:
`dayNode && dayNode[meal]` (both truthy). -/
def hasMealData (dayNode : JsValue) (m : MealType) : Bool :=
  truthy dayNode && truthy (jsIndex dayNode (mealKey m))

/-- The recognized attendance flag fields of the strict normalizer, in its
documented priority order. -/
def recognizedFlagOrder : List String :=
  ["attending", "isAttending", "isattending", "present", "isPresent",
    "ispresent"]

/-- Specification-side reading of the strict normalizer's object case: the
first boolean value found scanning the recognized flag fields in priority
order. -/
def firstRecognizedFlag (fields : List (String × JsValue)) : Option Bool :=
  recognizedFlagOrder.findSome? (fun k => boolField (.vObj fields) k)

/-- Whether a value carries any recognized boolean attendance flag. -/
def hasRecognizedFlag (v : JsValue) : Bool :=
  recognizedFlagOrder.any (fun k => (boolField v k).isSome)

/-- Whether a value is a plain boolean. -/
def isBoolVal : JsValue → Bool
  | .vBool _ => true
  | _ => false

/-- Specification-side mean of one rating field: the arithmetic mean over
exactly the records whose value of that field is a positive number. -/
def specFieldMean (f : Rating → Option ℚ) (ratings : List Rating) : ℚ :=
  let vs := (ratings.map (fun r => (f r).getD 0)).filter
    (fun v => decide (0 < v))
  vs.sum / (vs.length : ℚ)

/-- A one-day attendance store sample: one Lunch RSVP on 2024-02-03. -/
def sampleStoreOneDay : List (String × JsValue) :=
  [("2024-02-03", .vObj [("Lunch", .vObj [("u1", .vBool true)])])]

/-- A two-day attendance store sample straddling a year boundary. -/
def sampleStoreYearBoundary : List (String × JsValue) :=
  [("2023-12-31", .vObj []), ("2024-01-01", .vObj [])]

/-- A two-day attendance store sample inside one year, given out of key
order. -/
def sampleStoreTwoDays : List (String × JsValue) :=
  [("2024-02-04", .vObj []),
   ("2024-02-03", .vObj [("Lunch", .vObj [("u1", .vBool true)])])]

/-- Two ratings with positive overall scores, one of which has zero staff
and hygiene scores. -/
def sampleRatingsMixedZero : List Rating :=
  [⟨none, none, none, some 4, some 0, some 0⟩,
   ⟨none, none, none, some 4, some 4, some 4⟩]

/-- One user's four ratings with overall scores 5, 5, 5, 1. -/
def sampleRatingsVolatile : List Rating :=
  [⟨some "A", some "a@x", some "Lunch", some 5, some 4, some 4⟩,
   ⟨some "A", some "a@x", some "Lunch", some 5, some 4, some 4⟩,
   ⟨some "A", some "a@x", some "Lunch", some 5, some 4, some 4⟩,
   ⟨some "A", some "a@x", some "Lunch", some 1, some 4, some 4⟩]

/-- One user's four ratings with overall scores 4, 4, 4, 4. -/
def sampleRatingsUniform : List Rating :=
  [⟨some "A", some "a@x", some "Lunch", some 4, some 4, some 4⟩,
   ⟨some "A", some "a@x", some "Lunch", some 4, some 4, some 4⟩,
   ⟨some "A", some "a@x", some "Lunch", some 4, some 4, some 4⟩,
   ⟨some "A", some "a@x", some "Lunch", some 4, some 4, some 4⟩]

/-- An attendance value whose only flag field is `isAttending: false`. -/
def sampleOnlyIsAttendingFalse : JsValue :=
  .vObj [("isAttending", .vBool false)]

end Mess

namespace Mess

theorem charsLe_refl (as : List Char) : charsLe as as = true := by
  induction as with
  | nil => rfl
  | cons a as ih => simp [charsLe, ih]

theorem charsLe_total (as bs : List Char) : (charsLe as bs || charsLe bs as) = true := by
  induction as generalizing bs with
  | nil => simp [charsLe]
  | cons a as ih =>
    cases bs with
    | nil => simp [charsLe]
    | cons b bs =>
      simp only [charsLe]
      rcases Nat.lt_trichotomy a.toNat b.toNat with h | h | h
      · simp [h]
      · simpa [h, Nat.lt_irrefl] using ih bs
      · simp [h, Nat.lt_asymm h]

theorem charsLe_trans (as : List Char) : ∀ (bs cs : List Char),
    charsLe as bs = true → charsLe bs cs = true → charsLe as cs = true := by
  induction as with
  | nil => intro bs cs _ _; rfl
  | cons a as ih =>
    intro bs cs h1 h2
    match bs, cs with
    | [], _ => simp [charsLe] at h1
    | _ :: _, [] => simp [charsLe] at h2
    | b :: bs, c :: cs =>
      simp only [charsLe] at h1 h2 ⊢
      split_ifs at h1 h2 ⊢ <;>
        first
          | rfl
          | omega
          | (exact ih bs cs h1 h2)

theorem charsLt_of_le_of_ne (as : List Char) : ∀ (bs : List Char),
    charsLe as bs = true → as ≠ bs → charsLt as bs = true := by
  induction as with
  | nil =>
    intro bs _ hne
    cases bs with
    | nil => exact absurd rfl hne
    | cons b bs => rfl
  | cons a as ih =>
    intro bs h1 hne
    cases bs with
    | nil => simp [charsLe] at h1
    | cons b bs =>
      simp only [charsLe] at h1
      simp only [charsLt]
      by_cases hhd : a = b
      · subst hhd
        simp only [Nat.lt_irrefl, if_neg] at h1 ⊢
        exact ih bs h1 (fun hh => hne (by rw [hh]))
      · rcases Nat.lt_trichotomy a.toNat b.toNat with h | h | h
        · simp [h]
        · exact absurd (Char.ext (UInt32.toNat.inj h)) hhd
        · rw [if_neg (Nat.lt_asymm h), if_pos h] at h1
          exact absurd h1 (by simp)

theorem jsLe_refl (a : String) : jsLe a a = true :=
  charsLe_refl a.data

theorem jsLe_total (a b : String) : (jsLe a b || jsLe b a) = true :=
  charsLe_total a.data b.data

theorem jsLe_trans {a b c : String} (h1 : jsLe a b = true)
    (h2 : jsLe b c = true) : jsLe a c = true :=
  charsLe_trans a.data b.data c.data h1 h2

theorem jsLt_of_le_of_ne {a b : String} (h1 : jsLe a b = true)
    (h2 : a ≠ b) : jsLt a b = true :=
  charsLt_of_le_of_ne a.data b.data h1 (fun hd => h2 (String.ext hd))

theorem pairwise_rel_getLast {α : Type} {R : α → α → Prop} {l : List α}
    (hp : l.Pairwise R) (hrefl : ∀ a, R a a) {m : α}
    (hl : l.getLast? = some m) : ∀ x ∈ l, R x m := by
  induction l with
  | nil => simp at hl
  | cons a t ih =>
    cases t with
    | nil =>
      simp only [List.getLast?_singleton, Option.some.injEq] at hl
      subst hl
      intro x hx
      rw [List.mem_singleton] at hx
      subst hx
      exact hrefl _
    | cons b t2 =>
      rw [List.getLast?_cons_cons] at hl
      intro x hx
      rcases List.mem_cons.mp hx with rfl | hx2
      · exact (List.pairwise_cons.mp hp).1 m (List.mem_of_getLast?_eq_some hl)
      · exact ih (List.pairwise_cons.mp hp).2 hl x hx2

theorem limitToLast_one_head (store : List (String × JsValue)) :
    (limitToLast 1 store).head? =
      (store.mergeSort (fun a b => jsLe a.1 b.1)).getLast? := by
  unfold limitToLast
  rw [List.head?_drop, ← List.getLast?_eq_getElem?]

theorem lastMeal_foldl (dayNode : JsValue) :
    (MEAL_ORDER.foldl (fun acc meal =>
        if truthy dayNode && truthy (jsIndex dayNode (mealKey meal)) then
          some meal
        else acc) none).getD .Breakfast =
      (if hasMealData dayNode .Dinner then .Dinner
       else if hasMealData dayNode .Lunch then .Lunch
       else .Breakfast) := by
  cases hB : truthy dayNode && truthy (jsIndex dayNode (mealKey .Breakfast)) <;>
  cases hL : truthy dayNode && truthy (jsIndex dayNode (mealKey .Lunch)) <;>
  cases hD : truthy dayNode && truthy (jsIndex dayNode (mealKey .Dinner)) <;>
  simp only [MEAL_ORDER, List.foldl_cons, List.foldl_nil, hasMealData,
    hB, hL, hD] <;> rfl

set_option maxRecDepth 4000 in
/-- C5: a meal slot whose end time is numerically less than its start time
wraps past midnight — the in-window test for start `"23:00"`, end
`"01:00"` accepts the time-of-day 00:30 (minute 30) and rejects 02:00
(minute 120), whatever the slot's item list. -/
theorem claim_C5_midnight_wrap (items : List String) :
    isTimeInSlot 30 ⟨"23:00", "01:00", items⟩ = true ∧
    isTimeInSlot 120 ⟨"23:00", "01:00", items⟩ = false :=
  ⟨rfl, rfl⟩

/-- C6: on the attendance node
`{u1: true, u2: {attending: false}, u3: {present: true}}` the
legacy-tolerant classifier counts exactly the two users `u1` and `u3` as
Yes; `u2` is excluded. -/
theorem claim_C6_legacy_scenario :
    extractYesUserIds (.vObj [("u1", .vBool true),
      ("u2", .vObj [("attending", .vBool false)]),
      ("u3", .vObj [("present", .vBool true)])]) = ["u1", "u3"] ∧
    (extractYesUserIds (.vObj [("u1", .vBool true),
      ("u2", .vObj [("attending", .vBool false)]),
      ("u3", .vObj [("present", .vBool true)])])).length = 2 := by
  decide

/-- C7: on an object the strict normalizer returns the first boolean
value found scanning `attending`, `isAttending`, `isattending`,
`present`, `isPresent`, `ispresent` in that priority order (the
documented names with their lowercase spelling variants); in particular
`{attending: false, present: true}` normalizes to No. -/
theorem claim_C7_field_priority :
    (∀ fields : List (String × JsValue),
      parseAttendanceValue (.vObj fields) = firstRecognizedFlag fields) ∧
    normalize (.vObj [("attending", .vBool false),
      ("present", .vBool true)]) = .no := by
  refine ⟨fun fields => ?_, by decide⟩
  simp only [parseAttendanceValue, firstRecognizedFlag, recognizedFlagOrder,
    List.findSome?_cons, List.findSome?_nil, truthy, isObjectType,
    Bool.and_self, if_true]
  cases boolField (.vObj fields) "attending" <;>
  cases boolField (.vObj fields) "isAttending" <;>
  cases boolField (.vObj fields) "isattending" <;>
  cases boolField (.vObj fields) "present" <;>
  cases boolField (.vObj fields) "isPresent" <;>
  cases boolField (.vObj fields) "ispresent" <;> rfl

/-- C8: the strict normalizer is a total pure function — on every input
value it returns exactly one of the three decisions Yes, No, NoResponse
(it is defined by exhaustive structural cases and cannot throw). -/
theorem claim_C8_normalizer_total (v : JsValue) :
    normalize v = .yes ∨ normalize v = .no ∨ normalize v = .noResponse := by
  unfold normalize
  rcases parseAttendanceValue v with _ | b
  · simp
  · cases b <;> simp

/-- C2: on a non-empty attendance store, the aggregator's authoritative
active meal: the resolved date is a lexicographically last date key of the
store; the resolved meal is the last meal in Breakfast < Lunch < Dinner
canonical order whose node under that date holds any data (Breakfast if
none does); `isLive` is true iff that date equals today's date; and
`isTomorrow` is true iff that date is lexicographically greater than
today's date. -/
theorem claim_C2_active_meal (store : List (String × JsValue))
    (todayStr : String) (fallback : ActiveMealInfo) (h : store ≠ []) :
    ∃ dayNode : JsValue,
      ((resolveActiveMeal store todayStr fallback).date, dayNode) ∈ store ∧
      (∀ k ∈ store.map Prod.fst,
        jsLe k (resolveActiveMeal store todayStr fallback).date = true) ∧
      (resolveActiveMeal store todayStr fallback).meal =
        (if hasMealData dayNode .Dinner then .Dinner
         else if hasMealData dayNode .Lunch then .Lunch
         else .Breakfast) ∧
      ((resolveActiveMeal store todayStr fallback).isLive = true ↔
        (resolveActiveMeal store todayStr fallback).date = todayStr) ∧
      (resolveActiveMeal store todayStr fallback).isTomorrow =
        jsLt todayStr (resolveActiveMeal store todayStr fallback).date := by
  have htrans : ∀ a b c : String × JsValue, jsLe a.1 b.1 = true →
      jsLe b.1 c.1 = true → jsLe a.1 c.1 = true :=
    fun _ _ _ h1 h2 => jsLe_trans h1 h2
  have htotal : ∀ a b : String × JsValue,
      (jsLe a.1 b.1 || jsLe b.1 a.1) = true :=
    fun a b => jsLe_total a.1 b.1
  have hperm := List.mergeSort_perm store (fun a b => jsLe a.1 b.1)
  have hsorted := @List.sorted_mergeSort (String × JsValue)
    (fun a b => jsLe a.1 b.1) htrans htotal store
  have hne : store.mergeSort (fun a b => jsLe a.1 b.1) ≠ [] := by
    intro hnil
    rw [hnil] at hperm
    exact h hperm.symm.eq_nil
  obtain ⟨m, hm⟩ := Option.isSome_iff_exists.mp
    (List.getLast?_isSome.mpr hne)
  obtain ⟨mk, mv⟩ := m
  have hres : resolveActiveMeal store todayStr fallback =
      { meal := (MEAL_ORDER.foldl (fun acc meal =>
            if truthy mv && truthy (jsIndex mv (mealKey meal)) then some meal
            else acc) none).getD .Breakfast
        isLive := mk == todayStr
        date := mk
        isTomorrow := jsLt todayStr mk } := by
    unfold resolveActiveMeal
    rw [limitToLast_one_head, hm]
  have hmem : (mk, mv) ∈ store :=
    hperm.mem_iff.mp (List.mem_of_getLast?_eq_some hm)
  refine ⟨mv, ?_, ?_, ?_, ?_, ?_⟩
  · rw [hres]
    exact hmem
  · intro k hk
    rw [hres]
    obtain ⟨x, hx, rfl⟩ := List.mem_map.mp hk
    have hx' : x ∈ store.mergeSort (fun a b => jsLe a.1 b.1) :=
      hperm.mem_iff.mpr hx
    exact pairwise_rel_getLast hsorted (fun a => jsLe_refl a.1) hm x hx'
  · rw [hres]
    exact lastMeal_foldl mv
  · rw [hres]
    simp
  · rw [hres]

/-- Witness for C2: the one-day sample store resolves on its own date. -/
theorem claim_C2_active_meal_witness :
    ∃ dayNode : JsValue,
      ((resolveActiveMeal sampleStoreOneDay "2024-02-03"
          ⟨.Breakfast, false, "2024-02-03", false⟩).date, dayNode) ∈
        sampleStoreOneDay ∧
      (∀ k ∈ sampleStoreOneDay.map Prod.fst,
        jsLe k (resolveActiveMeal sampleStoreOneDay "2024-02-03"
          ⟨.Breakfast, false, "2024-02-03", false⟩).date = true) ∧
      (resolveActiveMeal sampleStoreOneDay "2024-02-03"
          ⟨.Breakfast, false, "2024-02-03", false⟩).meal =
        (if hasMealData dayNode .Dinner then .Dinner
         else if hasMealData dayNode .Lunch then .Lunch
         else .Breakfast) ∧
      ((resolveActiveMeal sampleStoreOneDay "2024-02-03"
          ⟨.Breakfast, false, "2024-02-03", false⟩).isLive = true ↔
        (resolveActiveMeal sampleStoreOneDay "2024-02-03"
          ⟨.Breakfast, false, "2024-02-03", false⟩).date = "2024-02-03") ∧
      (resolveActiveMeal sampleStoreOneDay "2024-02-03"
          ⟨.Breakfast, false, "2024-02-03", false⟩).isTomorrow =
        jsLt "2024-02-03" (resolveActiveMeal sampleStoreOneDay "2024-02-03"
          ⟨.Breakfast, false, "2024-02-03", false⟩).date :=
  claim_C2_active_meal sampleStoreOneDay "2024-02-03"
    ⟨.Breakfast, false, "2024-02-03", false⟩ (List.cons_ne_nil _ _)

unseal List.merge List.mergeSort in
/-- C3 as stated fails: across a year boundary the emitted `date` fields
(`date.slice(5)`, the key without its year) are not ascending — with date
keys 2023-12-31 and 2024-01-01 the chart rows carry "12-31" before
"01-01". -/
theorem counterexample_C3_year_boundary :
    ¬ List.Pairwise (fun a b => jsLt a.date b.date = true)
      (dailyStatsOfStore sampleStoreYearBoundary) := by
  decide

/-- C3 (amended): for every attendance store with distinct date keys, the
`dailyStats` rows are emitted in strictly ascending order of the
underlying full `YYYY-MM-DD` date keys of the last-7 window — there is an
arrangement `ks` of exactly that window's date keys which is strictly
ascending and whose year-stripped keys (`drop 5`, the source's
`slice(5)`) are the emitted `date` fields in row order — so the `date`
field itself ascends only while the year prefix is constant. -/
theorem claim_C3_daily_stats_order (store : List (String × JsValue))
    (h : (store.map Prod.fst).Nodup) :
    ∃ ks : List String,
      ks.Perm ((limitToLast 7 store).map Prod.fst) ∧
      List.Pairwise (fun a b => jsLt a b = true) ks ∧
      (dailyStatsOfStore store).map (fun d => d.date) =
        ks.map (fun k => k.drop 5) := by
  refine ⟨((limitToLast 7 store).mergeSort (fun a b => jsLe a.1 b.1)).map
    Prod.fst, ?_, ?_, ?_⟩
  · exact (List.mergeSort_perm (limitToLast 7 store)
      (fun a b => jsLe a.1 b.1)).map Prod.fst
  · have htrans : ∀ a b c : String × JsValue, jsLe a.1 b.1 = true →
        jsLe b.1 c.1 = true → jsLe a.1 c.1 = true :=
      fun _ _ _ h1 h2 => jsLe_trans h1 h2
    have htotal : ∀ a b : String × JsValue,
        (jsLe a.1 b.1 || jsLe b.1 a.1) = true :=
      fun a b => jsLe_total a.1 b.1
    have hsorted := @List.sorted_mergeSort (String × JsValue)
      (fun a b => jsLe a.1 b.1) htrans htotal (limitToLast 7 store)
    have hnW : ((limitToLast 7 store).map Prod.fst).Nodup := by
      have hsub : (limitToLast 7 store).Sublist
          (store.mergeSort (fun a b => jsLe a.1 b.1)) :=
        List.drop_sublist _ _
      exact (hsub.map Prod.fst).nodup
        (((List.mergeSort_perm store (fun a b => jsLe a.1 b.1)).map
          Prod.fst).symm.nodup h)
    have hnod : (((limitToLast 7 store).mergeSort
        (fun a b => jsLe a.1 b.1)).map Prod.fst).Nodup :=
      ((List.mergeSort_perm (limitToLast 7 store)
        (fun a b => jsLe a.1 b.1)).map Prod.fst).symm.nodup hnW
    rw [List.pairwise_map]
    unfold List.Nodup at hnod
    rw [List.pairwise_map] at hnod
    exact (hsorted.and hnod).imp
      (fun hab => jsLt_of_le_of_ne hab.1 hab.2)
  · show (buildDailyStats (limitToLast 7 store)).map (fun d => d.date) = _
    unfold buildDailyStats
    simp only [List.map_map]
    rfl

/-- Witness for C3 at a concrete two-day store supplied out of order. -/
theorem claim_C3_daily_stats_order_witness :
    ∃ ks : List String,
      ks.Perm ((limitToLast 7 sampleStoreTwoDays).map Prod.fst) ∧
      List.Pairwise (fun a b => jsLt a b = true) ks ∧
      (dailyStatsOfStore sampleStoreTwoDays).map (fun d => d.date) =
        ks.map (fun k => k.drop 5) :=
  claim_C3_daily_stats_order sampleStoreTwoDays (by decide)

/-- C1 as stated fails for the staff-behavior average: with one record of
positive overall score but zero staff score and one fully-positive
record, the page computes a staff average of 2 — the zero-staff record
stays in the numerator (as 0) and the denominator — while the mean over
records whose staff field is positive is 4. -/
theorem counterexample_C1_staff_average :
    (averages sampleRatingsMixedZero).map (fun o => o.staff) = some 2 ∧
    specFieldMean (fun r => r.staffBehaviorRating) sampleRatingsMixedZero
      = 4 ∧
    (2 : ℚ) ≠ 4 := by
  refine ⟨?_, ?_, by norm_num⟩
  · simp [averages, sampleRatingsMixedZero]
    norm_num
  · simp [specFieldMean, sampleRatingsMixedZero]

/-- C1 (amended): the overall average is the arithmetic mean over exactly
the records with a positive `averageRating` (zero/invalid overall scores
excluded from numerator and denominator); the staff-behavior and hygiene
averages are taken over that same record set — selected by the overall
score, not by their own field — with missing values read as 0, so zero or
invalid staff/hygiene scores are not excluded from either side of the
division. -/
theorem claim_C1_averages (ratings : List Rating)
    (h : ratings.filter (fun r => decide (0 < r.averageRating.getD 0)) ≠ []) :
    averages ratings = some
      { overall := specFieldMean (fun r => r.averageRating) ratings
        staff := ((ratings.filter (fun r =>
            decide (0 < r.averageRating.getD 0))).map
              (fun r => r.staffBehaviorRating.getD 0)).sum /
          ((ratings.filter (fun r =>
            decide (0 < r.averageRating.getD 0))).length : ℚ)
        hygiene := ((ratings.filter (fun r =>
            decide (0 < r.averageRating.getD 0))).map
              (fun r => r.hygieneRating.getD 0)).sum /
          ((ratings.filter (fun r =>
            decide (0 < r.averageRating.getD 0))).length : ℚ) } := by
  have hq : ((ratings.map (fun r => r.averageRating.getD 0)).filter
      (fun v => decide (0 < v))) =
      (ratings.filter (fun r => decide (0 < r.averageRating.getD 0))).map
        (fun r => r.averageRating.getD 0) := by
    rw [List.filter_map]
    rfl
  unfold averages specFieldMean
  rw [if_neg (by simpa [List.length_eq_zero] using h)]
  simp only [hq, List.length_map]

/-- Witness for C1 at the two-record sample. -/
theorem claim_C1_averages_witness :
    averages sampleRatingsMixedZero = some
      { overall := specFieldMean (fun r => r.averageRating)
          sampleRatingsMixedZero
        staff := ((sampleRatingsMixedZero.filter (fun r =>
            decide (0 < r.averageRating.getD 0))).map
              (fun r => r.staffBehaviorRating.getD 0)).sum /
          ((sampleRatingsMixedZero.filter (fun r =>
            decide (0 < r.averageRating.getD 0))).length : ℚ)
        hygiene := ((sampleRatingsMixedZero.filter (fun r =>
            decide (0 < r.averageRating.getD 0))).map
              (fun r => r.hygieneRating.getD 0)).sum /
          ((sampleRatingsMixedZero.filter (fun r =>
            decide (0 < r.averageRating.getD 0))).length : ℚ) } :=
  claim_C1_averages sampleRatingsMixedZero (by simp [sampleRatingsMixedZero])

unseal List.merge List.mergeSort in
/-- C4 as stated fails on the variance value: the user analytics builder
assigns the rating multiset [5,5,5,1] a population variance of 3.0
(mean 4.0, squared deviations 1+1+1+9 = 12, divided by 4), not the 4.0
the claim states. -/
theorem counterexample_C4_variance :
    (buildUserStats sampleRatingsVolatile).map
      (fun u => (u.avg, u.variance)) = [(4, 3)] ∧ (3 : ℚ) ≠ 4 := by
  constructor
  · simp [buildUserStats, groupByUser, insertRating, userKey,
      sampleRatingsVolatile, roundTo]
    norm_num
  · norm_num

unseal List.merge List.mergeSort in
/-- C4 (amended): a user whose overall ratings are [5,5,5,1] has mean 4.0
and variance 3.0 and is flagged anomalous (variance > 1.5), while a user
whose overall ratings are [4,4,4,4] (mean 4.0, variance 0) is not
flagged. -/
theorem claim_C4_anomaly_flag :
    (buildUserStats sampleRatingsVolatile).map
      (fun u => (u.avg, u.variance, u.anomaly)) = [(4, 3, true)] ∧
    (buildUserStats sampleRatingsUniform).map
      (fun u => (u.avg, u.variance, u.anomaly)) = [(4, 0, false)] := by
  constructor
  · simp [buildUserStats, groupByUser, insertRating, userKey,
      sampleRatingsVolatile, roundTo]
    norm_num
  · simp [buildUserStats, groupByUser, insertRating, userKey,
      sampleRatingsUniform, roundTo]
    norm_num [round_eq]

theorem status_filter_length (cs : List Complaint) :
    (cs.filter (fun c => c.status == ComplaintStatus.Pending)).length +
      (cs.filter (fun c => c.status == ComplaintStatus.InProgress)).length +
      (cs.filter (fun c => c.status == ComplaintStatus.Resolved)).length =
      cs.length := by
  induction cs with
  | nil => rfl
  | cons c t ih =>
    cases hc : c.status <;> simp [List.filter_cons, hc] <;> omega

/-- C9: the complaints grouping partitions the input by status into the
three buckets Pending, In Progress, Resolved (each bucket is a
permutation of the complaints with that status, and the bucket sizes sum
to the input size); the Pending and In Progress buckets are sorted
ascending by timestamp (oldest first) and the Resolved bucket descending
(newest first). -/
theorem claim_C9_complaint_grouping (cs : List Complaint) :
    (grouped cs).1.Perm
      (cs.filter (fun c => c.status == ComplaintStatus.Pending)) ∧
    (grouped cs).2.1.Perm
      (cs.filter (fun c => c.status == ComplaintStatus.InProgress)) ∧
    (grouped cs).2.2.Perm
      (cs.filter (fun c => c.status == ComplaintStatus.Resolved)) ∧
    ((grouped cs).1.length + (grouped cs).2.1.length +
      (grouped cs).2.2.length = cs.length) ∧
    List.Pairwise (fun a b => a.timestamp.getD 0 ≤ b.timestamp.getD 0)
      (grouped cs).1 ∧
    List.Pairwise (fun a b => a.timestamp.getD 0 ≤ b.timestamp.getD 0)
      (grouped cs).2.1 ∧
    List.Pairwise (fun a b => b.timestamp.getD 0 ≤ a.timestamp.getD 0)
      (grouped cs).2.2 := by
  have hT : ∀ a b c : Complaint,
      decide (a.timestamp.getD 0 ≤ b.timestamp.getD 0) = true →
      decide (b.timestamp.getD 0 ≤ c.timestamp.getD 0) = true →
      decide (a.timestamp.getD 0 ≤ c.timestamp.getD 0) = true := by
    intro a b c h1 h2
    simp only [decide_eq_true_eq] at h1 h2 ⊢
    omega
  have hTot : ∀ a b : Complaint,
      (decide (a.timestamp.getD 0 ≤ b.timestamp.getD 0) ||
        decide (b.timestamp.getD 0 ≤ a.timestamp.getD 0)) = true := by
    intro a b
    simp only [Bool.or_eq_true, decide_eq_true_eq]
    omega
  have hTd : ∀ a b c : Complaint,
      decide (b.timestamp.getD 0 ≤ a.timestamp.getD 0) = true →
      decide (c.timestamp.getD 0 ≤ b.timestamp.getD 0) = true →
      decide (c.timestamp.getD 0 ≤ a.timestamp.getD 0) = true := by
    intro a b c h1 h2
    simp only [decide_eq_true_eq] at h1 h2 ⊢
    omega
  have hTotd : ∀ a b : Complaint,
      (decide (b.timestamp.getD 0 ≤ a.timestamp.getD 0) ||
        decide (a.timestamp.getD 0 ≤ b.timestamp.getD 0)) = true := by
    intro a b
    simp only [Bool.or_eq_true, decide_eq_true_eq]
    omega
  have hp1 : (grouped cs).1.Perm
      (cs.filter (fun c => c.status == ComplaintStatus.Pending)) :=
    List.mergeSort_perm _ _
  have hp2 : (grouped cs).2.1.Perm
      (cs.filter (fun c => c.status == ComplaintStatus.InProgress)) :=
    List.mergeSort_perm _ _
  have hp3 : (grouped cs).2.2.Perm
      (cs.filter (fun c => c.status == ComplaintStatus.Resolved)) :=
    List.mergeSort_perm _ _
  refine ⟨hp1, hp2, hp3, ?_, ?_, ?_, ?_⟩
  · rw [hp1.length_eq, hp2.length_eq, hp3.length_eq]
    exact status_filter_length cs
  · exact (List.sorted_mergeSort hT hTot _).imp
      (fun hab => of_decide_eq_true hab)
  · exact (List.sorted_mergeSort hT hTot _).imp
      (fun hab => of_decide_eq_true hab)
  · exact (List.sorted_mergeSort hTd hTotd _).imp
      (fun hab => of_decide_eq_true hab)

/-- C10 as stated fails: the object `{isAttending: false}` is neither a
plain boolean nor an object with a boolean `attending`/`present` field,
and the legacy-tolerant classifier does count its user as Yes — but the
strict normalizer reads the `isAttending` flag and returns No, not
NoResponse. -/
theorem counterexample_C10_isAttending :
    legacyFlag sampleOnlyIsAttendingFalse = true ∧
    extractYesUserIds (.vObj [("u1", sampleOnlyIsAttendingFalse)]) =
      ["u1"] ∧
    parseAttendanceValue sampleOnlyIsAttendingFalse = some false ∧
    normalize sampleOnlyIsAttendingFalse ≠ .noResponse := by
  decide

/-- C10 (amended): for every attendance entry value that is neither a
plain boolean nor an object carrying any recognized boolean flag
(`attending`, `isAttending`, `isattending`, `present`, `isPresent`,
`ispresent`), the legacy-tolerant classifier counts the user as Yes —
this covers `{}` and falsy non-booleans such as 0 or the empty string —
while the strict normalizer returns NoResponse, so the two classifiers
disagree on every such value.  (An object whose only flags are among the
other recognized names, e.g. `{isAttending: false}`, is still a legacy
Yes but normalizes to that flag's value rather than NoResponse.) -/
theorem claim_C10_classifier_divergence (uid : String) (v : JsValue)
    (hb : isBoolVal v = false) (hf : hasRecognizedFlag v = false) :
    legacyFlag v = true ∧
    extractYesUserIds (.vObj [(uid, v)]) = [uid] ∧
    parseAttendanceValue v = none ∧
    normalize v = .noResponse := by
  have hnone : ∀ k ∈ recognizedFlagOrder, boolField v k = none := by
    intro k hk
    have h1 := List.any_eq_false.mp hf k hk
    exact Option.not_isSome_iff_eq_none.mp (by simpa using h1)
  have hA := hnone "attending" (by simp [recognizedFlagOrder])
  have hIA := hnone "isAttending" (by simp [recognizedFlagOrder])
  have hLA := hnone "isattending" (by simp [recognizedFlagOrder])
  have hP := hnone "present" (by simp [recognizedFlagOrder])
  have hIP := hnone "isPresent" (by simp [recognizedFlagOrder])
  have hLP := hnone "ispresent" (by simp [recognizedFlagOrder])
  have h1 : legacyFlag v = true := by
    rcases v with _ | _ | b | n | st | es | fs
    · rfl
    · rfl
    · simp [isBoolVal] at hb
    · simp [legacyFlag, truthy, isObjectType, Bool.and_false]
    · simp [legacyFlag, truthy, isObjectType, Bool.and_false]
    · simp [legacyFlag, truthy, isObjectType, hA, hP]
    · simp [legacyFlag, truthy, isObjectType, hA, hP]
  have h2 : parseAttendanceValue v = none := by
    rcases v with _ | _ | b | n | st | es | fs
    · rfl
    · rfl
    · simp [isBoolVal] at hb
    · simp [parseAttendanceValue, truthy, isObjectType, Bool.and_false]
    · simp [parseAttendanceValue, truthy, isObjectType, Bool.and_false]
    · simp [parseAttendanceValue, truthy, isObjectType,
        hA, hIA, hLA, hP, hIP, hLP]
    · simp [parseAttendanceValue, truthy, isObjectType,
        hA, hIA, hLA, hP, hIP, hLP]
  refine ⟨h1, ?_, h2, ?_⟩
  · simp [extractYesUserIds, jsEntries, truthy, isObjectType,
      List.filter, h1]
  · simp [normalize, h2]

/-- Witness for C10 at the falsy non-boolean value 0. -/
theorem claim_C10_classifier_divergence_witness :
    legacyFlag (.vNum 0) = true ∧
    extractYesUserIds (.vObj [("u1", .vNum 0)]) = ["u1"] ∧
    parseAttendanceValue (.vNum 0) = none ∧
    normalize (.vNum 0) = .noResponse :=
  claim_C10_classifier_divergence "u1" (.vNum 0) (by decide) (by decide)

end Mess
